import Mathlib

/-!
Shallow embedding of the brewsweep core (src/main.rs, src/scanner.rs).

External effects (subprocess invocation, filesystem access, channels) are
modelled as explicit inputs: a `ScanEnv` fixes the observable outcome of every
subprocess call and filesystem query a scan performs, and a pause schedule
fixes the value of the shared `is_paused` flag at each point where the scan
loop reads it (the flag is written only by the control thread, between reads).
Timestamps (`SystemTime`) are modelled as `Nat`; `Instant`-based fields
(`start_time`) are dropped because no verified claim mentions real time.
String messages follow the source, except that single-quote characters
inside Rust message literals are omitted.
-/

inductive PackageType
  | Formula
  | Cask
deriving DecidableEq, Repr

/-- `Package` from src/main.rs (fields `name`, `package_type`,
`last_accessed`, `last_accessed_path`). -/
structure Package where
  name : String
  package_type : PackageType
  last_accessed : Option Nat
  last_accessed_path : Option String
deriving DecidableEq, Repr

/-- `ScanningState` from src/scanner.rs, without the `start_time : Instant`
field (real time, unused by any claim). -/
structure ScanningState where
  packages_found : Nat
  packages_scanned : Nat
  total_packages : Nat
  current_path : String
  is_paused : Bool
  scan_complete : Bool
  error_message : Option String
deriving DecidableEq, Repr

def ScanningState.new : ScanningState :=
  { packages_found := 0
    packages_scanned := 0
    total_packages := 0
    current_path := "Initializing..."
    is_paused := false
    scan_complete := false
    error_message := none }

/-- Observable outcome of one `Command::output()` call that spawned:
the exit status and the stdout bytes, already decoded (`.ok text`) or
rejected as invalid UTF-8 (`.error msg`, the formatted decode error). -/
structure CmdOutput where
  success : Bool
  stdout : Except String String

/-- `HomebrewScanner::get_homebrew_prefix`. The argument is the outcome of
`Command::new("brew").args(["--prefix"]).output()`: `.error e` when the spawn
itself failed with io error text `e`. -/
def get_homebrew_prefix (r : Except String CmdOutput) : Except String String :=
  match r with
  | .error e => .error ("failed to run brew --prefix: " ++ e)
  | .ok out =>
      if !out.success then
        .error "Hombrew not found or not properly installed."
      else
        match out.stdout with
        | .error e => .error ("Invalid UTF-8 in brew --prefix output: " ++ e)
        | .ok s => .ok s.trim

/-- The `.lines().map(trim).filter(non-empty).collect()` pipeline applied to
the stdout of a `brew list` call.  Rust `str::lines` splits on newline and
strips a trailing carriage return; since every line is trimmed and empty
lines are dropped afterwards, splitting on newline and trimming is
behaviourally identical. -/
def parse_list (s : String) : List String :=
  ((s.splitOn "\n").map String.trim).filter (fun l => l ≠ "")

/-- `HomebrewScanner::get_installed_packages`.  Arguments are the outcomes of
`brew list --formula` and `brew list --cask`.  Note the source treats a
non-zero exit status as an empty list, not as an error; only a failed spawn
or invalid UTF-8 is an error, and a formula-side error short-circuits before
the cask query. -/
def get_installed_packages (fr cr : Except String CmdOutput) :
    Except String (List String × List String) := do
  let formulas ← match fr with
    | .error e => Except.error ("Failed to get foruma list: " ++ e)
    | .ok out =>
        if out.success then
          match out.stdout with
          | .error e => Except.error ("Invalid UTF-8 in formulas output: " ++ e)
          | .ok s => Except.ok (parse_list s)
        else Except.ok []
  let casks ← match cr with
    | .error e => Except.error ("Failed to get cask list: " ++ e)
    | .ok out =>
        if out.success then
          match out.stdout with
          | .error e => Except.error ("Invalid UTF-8 in casks output: " ++ e)
          | .ok s => Except.ok (parse_list s)
        else Except.ok []
  Except.ok (formulas, casks)

/-- Environment of one scan: outcomes of the three subprocess calls plus
oracles for the two filesystem helpers.  `find_paths pfx name ty` is the
path list returned by `HomebrewScanner::find_package_paths` (paths rendered
as strings, as `to_string_lossy` does), and `access p` is the result of
`HomebrewScanner::get_file_acess_info` on path `p` (`none` when
`fs::metadata` or `accessed()` fails). -/
structure ScanEnv where
  prefixRes : Except String CmdOutput
  formulaRes : Except String CmdOutput
  caskRes : Except String CmdOutput
  find_paths : String → String → PackageType → List String
  access : String → Option Nat

/-- Construction of one `Package` inside the scan loop of
`HomebrewScanner::scan_packages`: take the first candidate path if any,
record its access time (which may itself be absent) and the path. -/
def scan_one (env : ScanEnv) (pfx : String) (name : String) (ty : PackageType) : Package :=
  match (env.find_paths pfx name ty).head? with
  | some p =>
      { name := name
        package_type := ty
        last_accessed := env.access p
        last_accessed_path := some p }
  | none =>
      { name := name
        package_type := ty
        last_accessed := none
        last_accessed_path := none }

def scan_label (ty : PackageType) (name : String) : String :=
  match ty with
  | .Formula => "Scanning formula: " ++ name
  | .Cask => "Scanning cask: " ++ name

/-- One `for (i, name) in list.iter().enumerate()` loop of `scan_packages`
(used for both the formula loop with `base = 0` and the cask loop with
`base = formulas.length`).  `sched n` is the value of the shared `is_paused`
flag at the n-th pause check the worker performs (checks are counted across
both loops); `chk` is the index of the next check.  Returns the updated
state, the accumulated package list, and the next check index. -/
def scan_items (env : ScanEnv) (sched : Nat → Bool) (pfx : String) (ty : PackageType)
    (base : Nat) :
    List String → Nat → Nat → ScanningState → List Package →
    ScanningState × List Package × Nat
  | [], _, chk, st, acc => (st, acc, chk)
  | name :: rest, i, chk, st, acc =>
      if sched chk && !st.scan_complete then
        (st, acc, chk + 1)
      else
        let st := { st with
          packages_scanned := base + i + 1
          current_path := scan_label ty name }
        let pkg := scan_one env pfx name ty
        let acc := acc ++ [pkg]
        let st := { st with packages_found := acc.length }
        scan_items env sched pfx ty base rest (i + 1) (chk + 1) st acc

/-- `HomebrewScanner::scan_packages`.  Returns the final `ScanningState`, the
final contents of the shared `packages` buffer, and the `Result` value of the
function (`.error e` when it returned early with `Err(e)`). -/
def scan_packages (env : ScanEnv) (sched : Nat → Bool)
    (st0 : ScanningState) (buf0 : List Package) :
    ScanningState × List Package × Except String Unit :=
  let st := { st0 with current_path := "Getting Hombrew prefix..." }
  match get_homebrew_prefix env.prefixRes with
  | .error e => (st, buf0, .error e)
  | .ok pfx =>
    let st := { st with current_path := "Getting package list..." }
    match get_installed_packages env.formulaRes env.caskRes with
    | .error e => (st, buf0, .error e)
    | .ok (formulas, casks) =>
      let st := { st with total_packages := formulas.length + casks.length }
      let r1 := scan_items env sched pfx .Formula 0 formulas 0 0 st []
      let r2 := scan_items env sched pfx .Cask formulas.length casks 0 r1.2.2 r1.1 r1.2.1
      ({ r2.1 with scan_complete := true, current_path := "Scan complete!" }, r2.2.1, .ok ())

/-- The worker closure of `HomebrewScanner::start_scan`: run `scan_packages`
and, on error, record the message and mark the scan complete. -/
def start_scan_run (env : ScanEnv) (sched : Nat → Bool)
    (st0 : ScanningState) (buf0 : List Package) :
    ScanningState × List Package :=
  match scan_packages env sched st0 buf0 with
  | (st, buf, .ok _) => (st, buf)
  | (st, buf, .error e) =>
      ({ st with error_message := some e, scan_complete := true }, buf)

/-- The comparator of `App::sort_packages_by_usage` in src/main.rs, turned
into the Boolean relation `compare a b ≠ Greater`:
never-accessed packages sort before accessed ones (and tie among
themselves), accessed packages compare by time, oldest first. -/
def le_pkg (a b : Package) : Bool :=
  match a.last_accessed, b.last_accessed with
  | none, none => true
  | none, some _ => true
  | some _, none => false
  | some x, some y => x ≤ y

/-- The list-level effect of `App::sort_packages_by_usage`: Rust
`Vec::sort_by` is a stable sort by the comparator, which is exactly
`List.mergeSort` with `le_pkg` (a stable sort w.r.t. a total, transitive
Boolean preorder is extensionally unique, so the Lean merge sort is a
faithful embedding of the Rust one). -/
def sort_packages_by_usage (items : List Package) : List Package :=
  items.mergeSort le_pkg

/-- `AppState` from src/main.rs. -/
inductive AppState
  | Table
  | Scanning
  | ScanComplete
  | PackageSelected (idx : Nat)
  | ConfirmDelete (idx : Nat)
  | Deleting (idx : Nat)
deriving DecidableEq, Repr

/-- The fields of `App` (src/main.rs) that the verified claims read or
write.  `selected` is `TableState::selected`; rendering-only fields
(colors, scrollbar position, column widths) are dropped.
`receivers_open` is true while `delete_output_receiver` and
`delete_result_receiver` are `Some` (they are set and cleared together). -/
structure App where
  selected : Option Nat
  items : List Package
  app_state : AppState
  delete_output : List String
  delete_message : Option String
  delete_success : Bool
  receivers_open : Bool
deriving DecidableEq, Repr

/-- `App::sort_packages_by_usage` (the method): sort the items and, when
non-empty, reset the selection to the top row. -/
def App.sort_packages_by_usage_app (app : App) : App :=
  let items := sort_packages_by_usage app.items
  if items.isEmpty then { app with items := items }
  else { app with items := items, selected := some 0 }

/-- `App::handle_delete_result`.  On success with a valid index: remove the
package, re-sort (which resets the selection to the top), then clamp the
selection; on failure: leave the inventory untouched.  Either way record the
message and return to the `Table` state. -/
def App.handle_delete_result (app : App) (package_index : Nat) (success : Bool)
    (message : String) : App :=
  let app :=
    if success then
      let app :=
        if package_index < app.items.length then
          let app := { app with items := app.items.eraseIdx package_index }
          let app := app.sort_packages_by_usage_app
          let app :=
            if app.items.isEmpty then { app with selected := none }
            else if decide (app.items.length ≤ package_index) then
              { app with selected := some (app.items.length - 1) }
            else { app with selected := some package_index }
          app
        else app
      { app with delete_success := true }
    else { app with delete_success := false }
  { app with delete_message := some message, app_state := AppState.Table }

/-- `App::execute_delete`: only a valid index launches a delete (moving to
`Deleting`, clearing the captured output, opening fresh channels); an
out-of-range index leaves the whole `App` unchanged. -/
def App.execute_delete (app : App) (package_index : Nat) : App :=
  if package_index < app.items.length then
    { app with
      app_state := AppState.Deleting package_index
      delete_output := []
      receivers_open := true }
  else app

/-- `App::render_confirm_delete` draws from `&self` (it can never change the
state); it returns early, drawing nothing, when the index is out of range.
Modelled as the name of the package whose details the frame shows, `none`
when nothing is drawn. -/
def App.render_confirm_delete (app : App) (package_index : Nat) : Option String :=
  if h : package_index < app.items.length then
    some (app.items.get ⟨package_index, h⟩).name
  else none

/-- `App::render_package_details`, same early-return shape. -/
def App.render_package_details (app : App) (package_index : Nat) : Option String :=
  if h : package_index < app.items.length then
    some (app.items.get ⟨package_index, h⟩).name
  else none

/-- `App::render_deleting`, same early-return shape. -/
def App.render_deleting (app : App) (package_index : Nat) : Option String :=
  if h : package_index < app.items.length then
    some (app.items.get ⟨package_index, h⟩).name
  else none

/-- The argument `HomebrewScanner::delete_package_with_output` passes to
`brew uninstall`. -/
def uninstall_arg (ty : PackageType) : String :=
  match ty with
  | .Formula => "--formula"
  | .Cask => "--cask"

/-- Exit status of the uninstall subprocess
(`ExitStatus::success()` / `ExitStatus::code()`). -/
structure ExitSt where
  success : Bool
  code : Option Int

/-- Observable behaviour of a spawned `brew uninstall` child: the stdout and
stderr line reads (`none` is an io read error, on which the reading loop
breaks) and the outcome of `child.wait()`. -/
structure SpawnedChild where
  stdout_lines : List (Option String)
  stderr_lines : List (Option String)
  waitRes : Except String ExitSt

/-- The `for line in reader.lines()` loops: forward decoded lines, stop at
the first read error. -/
def read_lines : List (Option String) → List String
  | [] => []
  | some l :: rest => l :: read_lines rest
  | none :: _ => []

/-- Rust `{:?}` rendering of `Option<i32>`, used in the exit-code error
message. -/
def fmt_code : Option Int → String
  | some c => "Some(" ++ toString c ++ ")"
  | none => "None"

/-- `HomebrewScanner::delete_package_with_output`.  The environment is the
spawn outcome (`.error e`: the spawn itself failed with io error `e`).
Returns the full sequence of lines sent on the output channel, in order,
and the `Result` of the function.  Note the synthetic command line and a
blank line are sent before the spawn is attempted. -/
def delete_package_with_output (pkg : Package) (env : Except String SpawnedChild) :
    List String × Except String Unit :=
  let package_arg := uninstall_arg pkg.package_type
  let out := ["$ brew uninstall " ++ package_arg ++ " " ++ pkg.name, ""]
  match env with
  | .error e => (out, .error ("Failed to start brew uninstall: " ++ e))
  | .ok child =>
    let out := out ++ read_lines child.stdout_lines
    match child.waitRes with
    | .error e => (out, .error ("Failed to wait for brew process: " ++ e))
    | .ok st =>
      if !st.success then
        let out := out ++ read_lines child.stderr_lines
        (out, .error ("brew uninstall failed with exit code: " ++ fmt_code st.code))
      else
        (out ++ ["", "✅ Uninstall completed successfully!"], .ok ())

deriving instance DecidableEq for Except

/-- One channel operation of the delete worker thread: a `send` on the
output channel or the single `send` on the result channel. -/
inductive WEvent
  | line (s : String)
  | result (r : Except String Unit)
deriving DecidableEq

/-- The sequence of channel operations the worker thread spawned by
`App::execute_delete` performs: `delete_package_with_output` sends its output
lines in order, then the closure sends the single result. -/
def worker_trace (pkg : Package) (env : Except String SpawnedChild) : List WEvent :=
  ((delete_package_with_output pkg env).1).map WEvent.line ++
    [WEvent.result (delete_package_with_output pkg env).2]

/-- The two mpsc channels of a running delete together with the consumer
state that `App::check_delete_progress` manipulates.  `pending` is the
suffix of the worker trace not yet sent; `outQ` and `resQ` are the channel
buffers (FIFO); `delete_output` is `App::delete_output` (capped at 20
lines); `delivered` is the full sequence of lines `try_recv` has returned
to the consumer, in order (what "delivered to the consumer" means);
`observed` is the result value the control thread has received, if any;
`receivers_open` is true while the `App` still holds the two receivers. -/
structure DeleteSys where
  pending : List WEvent
  outQ : List String
  resQ : List (Except String Unit)
  delete_output : List String
  delivered : List String
  observed : Option (Except String Unit)
  receivers_open : Bool
deriving DecidableEq

/-- `self.delete_output.push(line)` followed by the 20-line cap
(`remove(0)` when the length exceeds 20). -/
def push_line (out : List String) (l : String) : List String :=
  let out := out ++ [l]
  if 20 < out.length then out.drop 1 else out

/-- Atomic steps of the two-thread delete system.  `worker` performs the
next channel send of the worker thread.  `drain` is the first half of one
`check_delete_progress` call (the `try_recv` loop on the output channel,
which stops when the channel is momentarily empty); `checkResult` is its
second half (one `try_recv` on the result channel; on success both
receivers are dropped, so later lines are never delivered).  The OS may
schedule worker sends between any two consumer steps. -/
inductive DStep
  | worker
  | drain
  | checkResult
deriving DecidableEq

def dstep (s : DeleteSys) : DStep → DeleteSys
  | .worker =>
      match s.pending with
      | [] => s
      | .line l :: rest => { s with outQ := s.outQ ++ [l], pending := rest }
      | .result r :: rest => { s with resQ := s.resQ ++ [r], pending := rest }
  | .drain =>
      if s.receivers_open then
        { s with
          delete_output := s.outQ.foldl push_line s.delete_output
          delivered := s.delivered ++ s.outQ
          outQ := [] }
      else s
  | .checkResult =>
      if s.receivers_open then
        match s.resQ with
        | [] => s
        | r :: rest =>
            { s with observed := some r, resQ := rest, receivers_open := false }
      else s

def run_delete (s : DeleteSys) (steps : List DStep) : DeleteSys :=
  steps.foldl dstep s

/-- State right after `App::execute_delete` spawned the worker for `pkg`. -/
def init_delete (pkg : Package) (env : Except String SpawnedChild) : DeleteSys :=
  { pending := worker_trace pkg env
    outQ := []
    resQ := []
    delete_output := []
    delivered := []
    observed := none
    receivers_open := true }

/-! ## Helper lemmas -/

theorem str_append_ne_empty (a b : String) (ha : a ≠ "") : a ++ b ≠ "" := by
  intro h
  apply ha
  have hd := congrArg String.data h
  simp only [String.data_append] at hd
  have : a.data = [] := (List.append_eq_nil.mp hd).1
  cases a
  simp_all

/-- Every error value `get_installed_packages` can produce is a non-empty
message (each of the four error branches prepends a non-empty literal). -/
theorem get_installed_packages_error_ne {fr cr : Except String CmdOutput} {e : String}
    (h : get_installed_packages fr cr = .error e) : e ≠ "" := by
  unfold get_installed_packages at h
  simp only [bind, Except.bind] at h
  repeat' split at h
  all_goals first
    | (cases h; exact str_append_ne_empty _ _ (by decide))
    | cases h

/-! ## C1 -/

/-- C1: for every scan whose list query fails (the prefix query succeeded but
`get_installed_packages` returned an error), the scan aborts with no partial
results: the shared inventory buffer stays empty, `error_message` is a
non-empty message, and `scan_complete` is set. -/
theorem C1_list_failure_aborts_scan (env : ScanEnv) (sched : Nat → Bool) (pfx e : String)
    (hp : get_homebrew_prefix env.prefixRes = .ok pfx)
    (hl : get_installed_packages env.formulaRes env.caskRes = .error e) :
    (start_scan_run env sched ScanningState.new []).2 = [] ∧
    (start_scan_run env sched ScanningState.new []).1.scan_complete = true ∧
    ∃ msg, (start_scan_run env sched ScanningState.new []).1.error_message = some msg ∧
      msg ≠ "" := by
  unfold start_scan_run scan_packages
  rw [hp, hl]
  exact ⟨rfl, rfl, e, rfl, get_installed_packages_error_ne hl⟩

def env_C1 : ScanEnv :=
  { prefixRes := .ok { success := true, stdout := .ok "/opt/homebrew" }
    formulaRes := .error "No such file or directory (os error 2)"
    caskRes := .ok { success := true, stdout := .ok "" }
    find_paths := fun _ _ _ => []
    access := fun _ => none }

unseal Substring.takeWhileAux Substring.takeRightWhileAux in
/-- C1 witness: a concrete environment whose formula list query fails to
spawn. -/
theorem C1_witness :
    (start_scan_run env_C1 (fun _ => false) ScanningState.new []).2 = [] ∧
    (start_scan_run env_C1 (fun _ => false) ScanningState.new []).1.scan_complete = true ∧
    ∃ msg,
      (start_scan_run env_C1 (fun _ => false) ScanningState.new []).1.error_message = some msg ∧
      msg ≠ "" :=
  C1_list_failure_aborts_scan env_C1 (fun _ => false) "/opt/homebrew"
    ("Failed to get foruma list: " ++ "No such file or directory (os error 2)")
    (by decide) (by decide)


/-! ## C3 -/

/-- A package built inside the scan loop has a recorded access time only if
it also has a recorded path (the converse fails, see the counterexample). -/
theorem scan_one_accessed_implies_path (env : ScanEnv) (pfx name : String) (ty : PackageType)
    (h : (scan_one env pfx name ty).last_accessed.isSome = true) :
    (scan_one env pfx name ty).last_accessed_path.isSome = true := by
  unfold scan_one at h ⊢
  cases hh : (env.find_paths pfx name ty).head? <;> simp_all

/-- Every package in the accumulator produced by a scan loop is either from
the starting accumulator or built by `scan_one`. -/
theorem mem_scan_items (env : ScanEnv) (sched : Nat → Bool) (pfx : String) (ty : PackageType)
    (base : Nat) :
    ∀ (names : List String) (i chk : Nat) (st : ScanningState) (acc : List Package)
      (p : Package),
      p ∈ (scan_items env sched pfx ty base names i chk st acc).2.1 →
      p ∈ acc ∨ ∃ name, p = scan_one env pfx name ty := by
  intro names
  induction names with
  | nil =>
    intro i chk st acc p hp
    exact Or.inl hp
  | cons name rest ih =>
    intro i chk st acc p hp
    rw [scan_items] at hp
    split at hp
    · exact Or.inl hp
    · rcases ih _ _ _ _ _ hp with h | h
      · rcases List.mem_append.mp h with h2 | h2
        · exact Or.inl h2
        · exact Or.inr ⟨name, List.mem_singleton.mp h2⟩
      · exact Or.inr h

/-- C3 (amended): for every package the Scan Engine ever constructs (every
member of the published inventory buffer of any scan), if `last_accessed` is
present then `last_accessed_path` is present.  The converse direction of the
claimed iff is refuted by `C3_counterexample`. -/
theorem C3_accessed_implies_path (env : ScanEnv) (sched : Nat → Bool) (p : Package)
    (hp : p ∈ (start_scan_run env sched ScanningState.new []).2)
    (ha : p.last_accessed.isSome = true) :
    p.last_accessed_path.isSome = true := by
  unfold start_scan_run scan_packages at hp
  cases hpr : get_homebrew_prefix env.prefixRes with
  | error e =>
    rw [hpr] at hp
    simp at hp
  | ok pfx =>
    rw [hpr] at hp
    cases hl : get_installed_packages env.formulaRes env.caskRes with
    | error e =>
      rw [hl] at hp
      simp at hp
    | ok pr =>
      obtain ⟨formulas, casks⟩ := pr
      rw [hl] at hp
      simp only [] at hp
      rcases mem_scan_items _ _ _ _ _ _ _ _ _ _ _ hp with h | ⟨name, rfl⟩
      · rcases mem_scan_items _ _ _ _ _ _ _ _ _ _ _ h with h2 | ⟨name, rfl⟩
        · simp at h2
        · exact scan_one_accessed_implies_path _ _ _ _ ha
      · exact scan_one_accessed_implies_path _ _ _ _ ha

def env_C3 : ScanEnv :=
  { prefixRes := .ok { success := true, stdout := .ok "/opt/homebrew" }
    formulaRes := .ok { success := true, stdout := .ok "ripgrep" }
    caskRes := .ok { success := true, stdout := .ok "" }
    find_paths := fun _ _ _ => ["/opt/homebrew/Cellar/ripgrep/14.1.0"]
    access := fun _ => none }

unseal String.splitOnAux Substring.takeWhileAux Substring.takeRightWhileAux in
/-- C3 counterexample: in a scan where the only candidate path of the only
package exists but its access timestamp cannot be read
(`get_file_acess_info` returns `None`), the Scan Engine publishes a package
whose `last_accessed_path` is present while `last_accessed` is absent, so
the claimed iff is false. -/
theorem C3_counterexample :
    (start_scan_run env_C3 (fun _ => false) ScanningState.new []).2 =
      [{ name := "ripgrep", package_type := .Formula, last_accessed := none,
         last_accessed_path := some "/opt/homebrew/Cellar/ripgrep/14.1.0" }] ∧
    ¬ (∀ p ∈ (start_scan_run env_C3 (fun _ => false) ScanningState.new []).2,
        p.last_accessed_path.isSome = p.last_accessed.isSome) := by
  constructor
  · decide
  · decide

def env_C3w : ScanEnv :=
  { prefixRes := .ok { success := true, stdout := .ok "/opt/homebrew" }
    formulaRes := .ok { success := true, stdout := .ok "ripgrep" }
    caskRes := .ok { success := true, stdout := .ok "" }
    find_paths := fun _ _ _ => ["/opt/homebrew/Cellar/ripgrep/14.1.0"]
    access := fun _ => some 1700000000 }

unseal String.splitOnAux Substring.takeWhileAux Substring.takeRightWhileAux in
/-- C3 witness: the amended direction applied to a concrete scan whose
single published package has an access time. -/
theorem C3_witness :
    ({ name := "ripgrep", package_type := .Formula, last_accessed := some 1700000000,
       last_accessed_path := some "/opt/homebrew/Cellar/ripgrep/14.1.0" } : Package) ∈
      (start_scan_run env_C3w (fun _ => false) ScanningState.new []).2 ∧
    ({ name := "ripgrep", package_type := .Formula, last_accessed := some 1700000000,
       last_accessed_path := some "/opt/homebrew/Cellar/ripgrep/14.1.0" } :
       Package).last_accessed_path.isSome = true :=
  ⟨by decide, C3_accessed_implies_path env_C3w (fun _ => false) _ (by decide) (by decide)⟩

/-! ## C4 -/

/-- Behaviour of one scan loop whose schedule is unpaused for the first `k`
checks and paused at check `k` (with `k` within the list): the first `k`
packages are collected, the loop breaks at check `k`, and `scan_complete`
is untouched. -/
theorem scan_items_pause (env : ScanEnv) (sched : Nat → Bool) (pfx : String)
    (ty : PackageType) (base : Nat) :
    ∀ (names : List String) (k i chk : Nat) (st : ScanningState) (acc : List Package),
      st.scan_complete = false →
      k < names.length →
      (∀ m, m < k → sched (chk + m) = false) →
      sched (chk + k) = true →
      (scan_items env sched pfx ty base names i chk st acc).2.1 =
        acc ++ (names.take k).map (fun n => scan_one env pfx n ty) ∧
      (scan_items env sched pfx ty base names i chk st acc).2.2 = chk + k + 1 ∧
      (scan_items env sched pfx ty base names i chk st acc).1.scan_complete = false := by
  intro names
  induction names with
  | nil =>
    intro k i chk st acc hst hk hbefore hpause
    simp at hk
  | cons name rest ih =>
    intro k i chk st acc hst hk hbefore hpause
    cases k with
    | zero =>
      rw [scan_items, if_pos (by simp [hst]; simpa using hpause)]
      simp [hst]
    | succ k =>
      have h0 : sched chk = false := by simpa using hbefore 0 (Nat.succ_pos k)
      rw [scan_items, if_neg (by simp [h0])]
      have hb : ∀ m, m < k → sched (chk + 1 + m) = false := by
        intro m hm
        have h := hbefore (m + 1) (by omega)
        rwa [show chk + (m + 1) = chk + 1 + m by omega] at h
      have hp : sched (chk + 1 + k) = true := by
        rwa [show chk + (k + 1) = chk + 1 + k by omega] at hpause
      obtain ⟨h1, h2, h3⟩ :=
        ih k (i + 1) (chk + 1)
          { st with
            packages_scanned := base + i + 1
            current_path := scan_label ty name
            packages_found := (acc ++ [scan_one env pfx name ty]).length }
          (acc ++ [scan_one env pfx name ty]) hst (by simpa using hk) hb hp
      refine ⟨?_, ?_, h3⟩
      · rw [h1]
        simp
      · rw [h2]
        omega

/-- A scan loop that is paused at its first check (or given no items)
collects nothing and leaves `scan_complete` untouched. -/
theorem scan_items_stop (env : ScanEnv) (sched : Nat → Bool) (pfx : String)
    (ty : PackageType) (base : Nat) (names : List String) (i chk : Nat)
    (st : ScanningState) (acc : List Package)
    (hst : st.scan_complete = false)
    (h : names = [] ∨ sched chk = true) :
    (scan_items env sched pfx ty base names i chk st acc).2.1 = acc ∧
    (scan_items env sched pfx ty base names i chk st acc).1.scan_complete = false := by
  cases names with
  | nil => exact ⟨rfl, hst⟩
  | cons name rest =>
    rcases h with h | h
    · cases h
    · rw [scan_items, if_pos (by simp [hst]; simpa using h)]
      exact ⟨rfl, hst⟩

/-- C4 (amended): when `is_paused` is observed at the check before formula
iteration `k` (and stays set from then on), the scan stops iterating —
packages from position `k` on are left unscanned — but the scan then runs
its completion step anyway: the collected-so-far packages are published
into the shared inventory buffer and `scan_complete` is set.  The original
claim that pausing publishes nothing and does not set `isComplete` is
refuted by `C4_counterexample`. -/
theorem C4_pause_publishes_partial (env : ScanEnv) (sched : Nat → Bool)
    (pfx : String) (formulas casks : List String) (k : Nat)
    (hp : get_homebrew_prefix env.prefixRes = .ok pfx)
    (hl : get_installed_packages env.formulaRes env.caskRes = .ok (formulas, casks))
    (hk : k < formulas.length)
    (hbefore : ∀ m, m < k → sched m = false)
    (hafter : ∀ m, k ≤ m → sched m = true) :
    (start_scan_run env sched ScanningState.new []).2 =
      (formulas.take k).map (fun n => scan_one env pfx n .Formula) ∧
    (start_scan_run env sched ScanningState.new []).1.scan_complete = true := by
  unfold start_scan_run scan_packages
  rw [hp, hl]
  obtain ⟨h1, h2, h3⟩ :=
    scan_items_pause env sched pfx .Formula 0 formulas k 0 0
      { ScanningState.new with
        current_path := "Getting package list..."
        total_packages := formulas.length + casks.length }
      [] rfl hk (fun m hm => by simpa using hbefore m hm) (by simpa using hafter k (Nat.le_refl k))
  obtain ⟨h4, h5⟩ :=
    scan_items_stop env sched pfx .Cask formulas.length casks 0
      ((scan_items env sched pfx .Formula 0 formulas 0 0
        { ScanningState.new with
          current_path := "Getting package list..."
          total_packages := formulas.length + casks.length } []).2.2)
      ((scan_items env sched pfx .Formula 0 formulas 0 0
        { ScanningState.new with
          current_path := "Getting package list..."
          total_packages := formulas.length + casks.length } []).1)
      ((scan_items env sched pfx .Formula 0 formulas 0 0
        { ScanningState.new with
          current_path := "Getting package list..."
          total_packages := formulas.length + casks.length } []).2.1)
      h3 (Or.inr (by rw [h2]; exact hafter _ (by omega)))
  refine ⟨?_, rfl⟩
  simp only []
  rw [h4, h1]
  simp

def env_C4 : ScanEnv :=
  { prefixRes := .ok { success := true, stdout := .ok "/opt/homebrew" }
    formulaRes := .ok { success := true, stdout := .ok "f1\nf2" }
    caskRes := .ok { success := true, stdout := .ok "" }
    find_paths := fun _ _ _ => []
    access := fun _ => none }

def sched_C4 : Nat → Bool := fun n => decide (1 ≤ n)

unseal String.splitOnAux Substring.takeWhileAux Substring.takeRightWhileAux in
/-- C4 counterexample: a scan of two formulas whose pause flag is observed
set from the second check on.  The second formula is left unscanned
(`packages_scanned = 1` of `total_packages = 2`), yet the run publishes the
collected-so-far package into the shared buffer and sets `scan_complete` —
contradicting the claim that pausing publishes nothing and does not set
`isComplete`. -/
theorem C4_counterexample :
    (start_scan_run env_C4 sched_C4 ScanningState.new []).1.scan_complete = true ∧
    (start_scan_run env_C4 sched_C4 ScanningState.new []).2 =
      [{ name := "f1", package_type := .Formula, last_accessed := none,
         last_accessed_path := none }] ∧
    (start_scan_run env_C4 sched_C4 ScanningState.new []).1.packages_scanned = 1 ∧
    (start_scan_run env_C4 sched_C4 ScanningState.new []).1.total_packages = 2 := by
  refine ⟨?_, ?_, ?_, ?_⟩ <;> decide

unseal String.splitOnAux Substring.takeWhileAux Substring.takeRightWhileAux in
/-- C4 witness: the amended theorem applied to the same concrete paused
scan. -/
theorem C4_witness :
    (start_scan_run env_C4 sched_C4 ScanningState.new []).2 =
      (["f1", "f2"].take 1).map (fun n => scan_one env_C4 "/opt/homebrew" n .Formula) ∧
    (start_scan_run env_C4 sched_C4 ScanningState.new []).1.scan_complete = true :=
  C4_pause_publishes_partial env_C4 sched_C4 "/opt/homebrew" ["f1", "f2"] [] 1
    (by decide) (by decide) (by decide)
    (fun m hm => by simp only [sched_C4, decide_eq_false_iff_not]; omega)
    (fun m hm => by simp only [sched_C4, decide_eq_true_eq]; omega)

/-! ## C5 -/

theorem le_pkg_trans (a b c : Package) (h1 : le_pkg a b) (h2 : le_pkg b c) : le_pkg a c := by
  unfold le_pkg at *
  rcases ha : a.last_accessed with _ | x <;> rcases hb : b.last_accessed with _ | y <;>
    rcases hc : c.last_accessed with _ | z <;> simp_all
  omega

theorem le_pkg_total (a b : Package) : le_pkg a b || le_pkg b a := by
  unfold le_pkg
  rcases a.last_accessed with _ | x <;> rcases b.last_accessed with _ | y <;> simp
  omega

/-- C5: the sort applied after scan completion and after successful deletion
is the claimed total order: (1) a package with no access time never follows
one with an access time at any pair of positions; (2) among packages
lacking an access time the original order is preserved (stability);
(3) among packages with an access time the times are ascending, oldest
first; (4) Scenario A: three packages resolving to t2, none, t1 with
t1 < t2 sort to none-package, t1-package, t2-package. -/
theorem C5_sort_total_order :
    (∀ (l : List Package) (i j : Nat) (hi : i < (sort_packages_by_usage l).length)
        (hj : j < (sort_packages_by_usage l).length), i < j →
        ((sort_packages_by_usage l).get ⟨j, hj⟩).last_accessed = none →
        ((sort_packages_by_usage l).get ⟨i, hi⟩).last_accessed = none) ∧
    (∀ l : List Package,
        (sort_packages_by_usage l).filter (fun q => q.last_accessed.isNone) =
          l.filter (fun q => q.last_accessed.isNone)) ∧
    (∀ (l : List Package) (i j : Nat) (hi : i < (sort_packages_by_usage l).length)
        (hj : j < (sort_packages_by_usage l).length), i < j → ∀ x y,
        ((sort_packages_by_usage l).get ⟨i, hi⟩).last_accessed = some x →
        ((sort_packages_by_usage l).get ⟨j, hj⟩).last_accessed = some y →
        x ≤ y) ∧
    (∀ (n1 n2 n3 p1 p2 : String) (t1 t2 : Nat), t1 < t2 →
        sort_packages_by_usage
          [{ name := n1, package_type := .Formula, last_accessed := some t2,
             last_accessed_path := some p2 },
           { name := n2, package_type := .Cask, last_accessed := none,
             last_accessed_path := none },
           { name := n3, package_type := .Formula, last_accessed := some t1,
             last_accessed_path := some p1 }] =
          [{ name := n2, package_type := .Cask, last_accessed := none,
             last_accessed_path := none },
           { name := n3, package_type := .Formula, last_accessed := some t1,
             last_accessed_path := some p1 },
           { name := n1, package_type := .Formula, last_accessed := some t2,
             last_accessed_path := some p2 }]) := by
  have hsorted : ∀ l : List Package,
      (sort_packages_by_usage l).Pairwise (fun a b => le_pkg a b = true) := fun l =>
    @List.sorted_mergeSort Package le_pkg (fun a b c => le_pkg_trans a b c) le_pkg_total l
  refine ⟨?_, ?_, ?_, ?_⟩
  · intro l i j hi hj hij hnone
    have hp := List.pairwise_iff_getElem.mp (hsorted l) i j hi hj hij
    simp only [List.get_eq_getElem] at hnone ⊢
    rcases ha : (sort_packages_by_usage l)[i].last_accessed with _ | x
    · rfl
    · unfold le_pkg at hp
      rw [ha, hnone] at hp
      simp at hp
  · intro l
    have hc : (l.filter (fun q => q.last_accessed.isNone)).Pairwise
        (fun a b => le_pkg a b = true) := by
      rw [List.pairwise_iff_getElem]
      intro i j hi hj hij
      have h1 := List.getElem_mem hi
      have h2 := List.getElem_mem hj
      have e1 := (List.mem_filter.mp h1).2
      have e2 := (List.mem_filter.mp h2).2
      simp only [] at e1 e2
      unfold le_pkg
      rw [Option.isNone_iff_eq_none.mp e1, Option.isNone_iff_eq_none.mp e2]
    have hsub : List.Sublist (l.filter (fun q => q.last_accessed.isNone))
        (sort_packages_by_usage l) :=
      List.sublist_mergeSort (fun a b c => le_pkg_trans a b c) le_pkg_total hc
        (List.filter_sublist l)
    have hsub2 := hsub.filter (fun q => q.last_accessed.isNone)
    rw [List.filter_eq_self.mpr (fun a ha => (List.mem_filter.mp ha).2)] at hsub2
    have hperm : List.Perm
        ((sort_packages_by_usage l).filter (fun q => q.last_accessed.isNone))
        (l.filter (fun q => q.last_accessed.isNone)) :=
      (List.mergeSort_perm l le_pkg).filter (fun q => q.last_accessed.isNone)
    exact (hsub2.eq_of_length hperm.length_eq.symm).symm
  · intro l i j hi hj hij x y hx hy
    have hp := List.pairwise_iff_getElem.mp (hsorted l) i j hi hj hij
    simp only [List.get_eq_getElem] at hx hy
    unfold le_pkg at hp
    rw [hx, hy] at hp
    simpa using hp
  · intro n1 n2 n3 p1 p2 t1 t2 h
    have h2 : ¬ (t2 ≤ t1) := Nat.not_le.mpr h
    simp [sort_packages_by_usage, List.mergeSort, List.splitInTwo, List.splitAt,
      List.splitAt.go, List.merge, le_pkg, h2, Nat.le_of_lt h]

/-- C5 witness: Scenario A of the sort-policy theorem at concrete names,
paths and times 1 < 2. -/
theorem C5_witness :
    (1 : Nat) < 2 ∧
    sort_packages_by_usage
      [{ name := "a", package_type := .Formula, last_accessed := some 2,
         last_accessed_path := some "pa" },
       { name := "b", package_type := .Cask, last_accessed := none,
         last_accessed_path := none },
       { name := "c", package_type := .Formula, last_accessed := some 1,
         last_accessed_path := some "pc" }] =
      [{ name := "b", package_type := .Cask, last_accessed := none,
         last_accessed_path := none },
       { name := "c", package_type := .Formula, last_accessed := some 1,
         last_accessed_path := some "pc" },
       { name := "a", package_type := .Formula, last_accessed := some 2,
         last_accessed_path := some "pa" }] :=
  ⟨by decide, C5_sort_total_order.2.2.2 "a" "b" "c" "pc" "pa" 1 2 (by decide)⟩

/-! ## C6 -/

/-- The inventory `handle_delete_result` leaves behind on a successful
delete with a valid index: the package at the index is removed and the
remainder re-sorted. -/
theorem handle_delete_result_success_items (app : App) (i : Nat) (msg : String)
    (hi : i < app.items.length) :
    (app.handle_delete_result i true msg).items =
      sort_packages_by_usage (app.items.eraseIdx i) := by
  unfold App.handle_delete_result App.sort_packages_by_usage_app
  simp only [if_pos hi]
  repeat' split
  all_goals simp_all

/-- With pairwise-distinct names, removing index `i` removes every
occurrence of that name. -/
theorem eraseIdx_name_ne (l : List Package) (i : Nat) (hi : i < l.length)
    (hd : l.Pairwise (fun a b => a.name ≠ b.name)) :
    ∀ q ∈ l.eraseIdx i, q.name ≠ (l.get ⟨i, hi⟩).name := by
  intro q hq
  rw [List.eraseIdx_eq_take_drop_succ] at hq
  have hl : l.take i ++ l[i] :: l.drop (i + 1) = l := by
    rw [← List.drop_eq_getElem_cons hi, List.take_append_drop]
  rw [← hl] at hd
  rw [List.pairwise_append] at hd
  obtain ⟨hd1, hd2, hd3⟩ := hd
  rcases List.mem_append.mp hq with hq | hq
  · exact hd3 q hq l[i] (List.mem_cons_self _ _)
  · have := (List.pairwise_cons.mp hd2).1 q hq
    simp only [List.get_eq_getElem]
    exact fun h => this h.symm

def app_C6 : App :=
  { selected := some 0
    items := [{ name := "foo", package_type := .Formula, last_accessed := none,
                last_accessed_path := none },
              { name := "foo", package_type := .Cask, last_accessed := none,
                last_accessed_path := none }]
    app_state := .Deleting 0
    delete_output := []
    delete_message := none
    delete_success := false
    receivers_open := true }

unseal List.merge List.mergeSort in
/-- C6 counterexample: a formula and a cask can carry the same name, so an
inventory with two packages named foo exists; deleting index 0 succeeds,
the length drops by one, yet a remaining package still shares the deleted
name — the claim is false as stated for every inventory. -/
theorem C6_counterexample :
    (app_C6.handle_delete_result 0 true "Successfully deleted package foo").items.length =
      app_C6.items.length - 1 ∧
    ¬ (∀ q ∈ (app_C6.handle_delete_result 0 true "Successfully deleted package foo").items,
        q.name ≠ "foo") := by
  constructor
  · decide
  · decide

/-- C6 (amended): when the delete of the package at a valid index `i`
succeeds and package names are pairwise distinct in the inventory, the new
inventory length is the old length minus 1 and no remaining package shares
the deleted package name. -/
theorem C6_delete_success (app : App) (i : Nat) (msg : String)
    (hi : i < app.items.length)
    (hd : app.items.Pairwise (fun a b => a.name ≠ b.name)) :
    (app.handle_delete_result i true msg).items.length = app.items.length - 1 ∧
    ∀ q ∈ (app.handle_delete_result i true msg).items,
      q.name ≠ (app.items.get ⟨i, hi⟩).name := by
  rw [handle_delete_result_success_items app i msg hi]
  constructor
  · unfold sort_packages_by_usage
    rw [List.length_mergeSort, List.length_eraseIdx_of_lt hi]
  · intro q hq
    have hq2 : q ∈ app.items.eraseIdx i := by
      unfold sort_packages_by_usage at hq
      exact List.mem_mergeSort.mp hq
    exact eraseIdx_name_ne app.items i hi hd q hq2

def app_C6w : App :=
  { selected := some 0
    items := [{ name := "alpha", package_type := .Formula, last_accessed := none,
                last_accessed_path := none },
              { name := "beta", package_type := .Cask, last_accessed := some 5,
                last_accessed_path := some "/Applications/Beta.app" }]
    app_state := .Deleting 0
    delete_output := []
    delete_message := none
    delete_success := false
    receivers_open := true }

/-- C6 witness: the amended theorem at a concrete two-package inventory
with distinct names. -/
theorem C6_witness :
    (app_C6w.handle_delete_result 0 true "Successfully deleted package alpha").items.length =
      app_C6w.items.length - 1 ∧
    ∀ q ∈ (app_C6w.handle_delete_result 0 true "Successfully deleted package alpha").items,
      q.name ≠ (app_C6w.items.get ⟨0, by decide⟩).name :=
  C6_delete_success app_C6w 0 "Successfully deleted package alpha" (by decide) (by decide)

/-! ## C7 -/

def app_C7 : App :=
  { selected := none
    items := []
    app_state := .ConfirmDelete 0
    delete_output := []
    delete_message := none
    delete_success := false
    receivers_open := false }

/-- C7 counterexample: with a stale index (the inventory has shrunk to
empty under a pending `ConfirmDelete 0`), the confirm transition
`execute_delete` does not fall back to `Table`: it leaves the state machine
in `ConfirmDelete 0`. -/
theorem C7_counterexample :
    (app_C7.execute_delete 0).app_state = AppState.ConfirmDelete 0 ∧
    (app_C7.execute_delete 0).app_state ≠ AppState.Table := by
  exact ⟨rfl, by decide⟩

/-- C7 (amended): a stale index (not below the current inventory length) is
treated as no-such-package in the sense that the renders for
`PackageSelected` / `ConfirmDelete` / `Deleting` draw nothing and
`execute_delete` does not launch a delete — but the `App`, including its
state, is left entirely unchanged; there is no fallback to `Table`. -/
theorem C7_stale_index_noop (app : App) (idx : Nat)
    (h : app.items.length ≤ idx) :
    app.execute_delete idx = app ∧
    app.render_confirm_delete idx = none ∧
    app.render_package_details idx = none ∧
    app.render_deleting idx = none := by
  have h2 : ¬ idx < app.items.length := Nat.not_lt.mpr h
  refine ⟨?_, ?_, ?_, ?_⟩ <;>
    simp [App.execute_delete, App.render_confirm_delete, App.render_package_details,
      App.render_deleting, h2]

/-- C7 witness: the no-op behaviour at the concrete stale state. -/
theorem C7_witness :
    app_C7.execute_delete 0 = app_C7 ∧
    app_C7.render_confirm_delete 0 = none ∧
    app_C7.render_package_details 0 = none ∧
    app_C7.render_deleting 0 = none :=
  C7_stale_index_noop app_C7 0 (by decide)

/-! ## C8 -/

/-- C8: for every delete that reports failure the inventory is unchanged
(contents, order and selection identical) and the state machine returns to
`Table`; and in both the success and the failure case the status message is
recorded in `delete_message`, so no terminal delete failure is silently
lost. -/
theorem C8_failure_keeps_inventory (app : App) (i : Nat) (msg : String) :
    (app.handle_delete_result i false msg).items = app.items ∧
    (app.handle_delete_result i false msg).selected = app.selected ∧
    (app.handle_delete_result i false msg).app_state = AppState.Table ∧
    (∀ success : Bool,
      (app.handle_delete_result i success msg).delete_message = some msg ∧
      (app.handle_delete_result i success msg).app_state = AppState.Table) := by
  refine ⟨rfl, rfl, rfl, ?_⟩
  intro success
  cases success
  · exact ⟨rfl, rfl⟩
  · unfold App.handle_delete_result App.sort_packages_by_usage_app
    repeat' split
    all_goals exact ⟨rfl, rfl⟩

/-! ## C2 -/

def pkg_C2 : Package :=
  { name := "wget", package_type := .Formula, last_accessed := none,
    last_accessed_path := none }

/-- C2 counterexample: a delete whose spawn of the manager process fails
has already emitted two output lines (the synthetic command trace and a
blank line) before the spawn was attempted — not zero. -/
theorem C2_counterexample :
    ((delete_package_with_output pkg_C2
        (.error "No such file or directory (os error 2)")).1).length = 2 ∧
    (delete_package_with_output pkg_C2
        (.error "No such file or directory (os error 2)")).1 =
      ["$ brew uninstall --formula wget", ""] := by
  exact ⟨rfl, by decide⟩

/-- C2 (amended): when spawning the manager process fails, the delete
worker emits exactly two output lines — the synthetic command trace and a
blank line, both sent before the spawn is attempted — and then resolves
exactly one failure result, whose message is the spawn-error text carrying
no exit code.  The full channel trace is exactly these two line sends
followed by the single failure result. -/
theorem C2_spawn_failure (pkg : Package) (e : String) :
    worker_trace pkg (.error e) =
      [WEvent.line ("$ brew uninstall " ++ uninstall_arg pkg.package_type ++ " " ++ pkg.name),
       WEvent.line "",
       WEvent.result (.error ("Failed to start brew uninstall: " ++ e))] ∧
    ((delete_package_with_output pkg (.error e)).1).length = 2 :=
  ⟨rfl, rfl⟩

/-! ## C9 -/

/-- Running one worker step per pending event sends every pending event
into its channel, in order, and touches nothing else. -/
theorem run_workers :
    ∀ (es : List WEvent) (s : DeleteSys), s.pending = es →
      run_delete s (List.replicate es.length DStep.worker) =
        { s with
          pending := []
          outQ := s.outQ ++ es.filterMap (fun e => match e with
            | .line l => some l
            | .result _ => none)
          resQ := s.resQ ++ es.filterMap (fun e => match e with
            | .result r => some r
            | .line _ => none) } := by
  intro es
  induction es with
  | nil =>
    intro s hs
    cases s
    simp_all [run_delete]
  | cons e rest ih =>
    intro s hs
    rw [List.length_cons, List.replicate_succ]
    have hrun : run_delete s (DStep.worker :: List.replicate rest.length DStep.worker) =
        run_delete (dstep s DStep.worker) (List.replicate rest.length DStep.worker) := rfl
    rw [hrun]
    cases e with
    | line l =>
      have hstep : dstep s DStep.worker = { s with outQ := s.outQ ++ [l], pending := rest } := by
        simp [dstep, hs]
      rw [hstep, ih _ rfl]
      simp [List.filterMap_cons]
    | result r =>
      have hstep : dstep s DStep.worker = { s with resQ := s.resQ ++ [r], pending := rest } := by
        simp [dstep, hs]
      rw [hstep, ih _ rfl]
      simp [List.filterMap_cons]

theorem filterMap_line_of_lines (ls : List String) :
    (ls.map WEvent.line).filterMap (fun e => match e with
      | WEvent.line l => some l
      | WEvent.result _ => none) = ls := by
  induction ls with
  | nil => rfl
  | cons l rest ih => simp_all [List.filterMap_cons]

theorem filterMap_result_of_lines (ls : List String) :
    (ls.map WEvent.line).filterMap (fun e => match e with
      | WEvent.result r => some r
      | WEvent.line _ => none) = [] := by
  induction ls with
  | nil => rfl
  | cons l rest ih => simp_all [List.filterMap_cons]

/-- C9 (amended): inside the worker every output line is sent before the
single result is sent, and the consumer drains the output channel before
checking the result channel; hence in the race-free interleaving — all
worker sends complete, then one poll tick runs — every output line is
delivered to the consumer strictly before the result is observed.  The
claimed guarantee for every interleaving is refuted by
`C9_counterexample`: lines sent between the drain and the result check of
the same tick are lost. -/
theorem C9_sequential_delivery (pkg : Package) (env : Except String SpawnedChild) :
    (run_delete (init_delete pkg env)
      (List.replicate (worker_trace pkg env).length DStep.worker ++
        [DStep.drain, DStep.checkResult])).delivered =
      (delete_package_with_output pkg env).1 ∧
    (run_delete (init_delete pkg env)
      (List.replicate (worker_trace pkg env).length DStep.worker ++
        [DStep.drain, DStep.checkResult])).observed =
      some (delete_package_with_output pkg env).2 := by
  have hsplit : run_delete (init_delete pkg env)
      (List.replicate (worker_trace pkg env).length DStep.worker ++
        [DStep.drain, DStep.checkResult]) =
      run_delete (run_delete (init_delete pkg env)
        (List.replicate (worker_trace pkg env).length DStep.worker))
        [DStep.drain, DStep.checkResult] := by
    simp [run_delete, List.foldl_append]
  rw [hsplit, run_workers (worker_trace pkg env) (init_delete pkg env) rfl]
  unfold worker_trace
  rw [List.filterMap_append, List.filterMap_append,
    filterMap_line_of_lines, filterMap_result_of_lines]
  simp [init_delete, run_delete, dstep, List.filterMap_cons]

def pkg_C9 : Package :=
  { name := "wget", package_type := .Formula, last_accessed := some 1700000000,
    last_accessed_path := some "/opt/homebrew/bin/wget" }

def child_C9 : SpawnedChild :=
  { stdout_lines := [some "Uninstalling /opt/homebrew/Cellar/wget/1.24.5"]
    stderr_lines := []
    waitRes := .ok { success := true, code := some 0 } }

/-- C9 counterexample: a legal interleaving of a successful delete in which
the worker sends its two trailing trace lines and then the result after the
consumer finished its output drain but before the consumer checked the
result channel in the same poll tick.  The consumer observes the result
while the success-marker line — an output line produced before the result
was resolved — has not been delivered, and both receivers are dropped, so
it never will be: the claimed ordering guarantee across the two channels is
false. -/
theorem C9_counterexample :
    (run_delete (init_delete pkg_C9 (.ok child_C9))
      [DStep.worker, DStep.worker, DStep.worker, DStep.drain,
       DStep.worker, DStep.worker, DStep.worker, DStep.checkResult]).observed =
      some (.ok ()) ∧
    "✅ Uninstall completed successfully!" ∈
      (delete_package_with_output pkg_C9 (.ok child_C9)).1 ∧
    "✅ Uninstall completed successfully!" ∉
      (run_delete (init_delete pkg_C9 (.ok child_C9))
        [DStep.worker, DStep.worker, DStep.worker, DStep.drain,
         DStep.worker, DStep.worker, DStep.worker, DStep.checkResult]).delivered ∧
    (run_delete (init_delete pkg_C9 (.ok child_C9))
      [DStep.worker, DStep.worker, DStep.worker, DStep.drain,
       DStep.worker, DStep.worker, DStep.worker, DStep.checkResult]).receivers_open =
      false := by
  refine ⟨?_, ?_, ?_, ?_⟩ <;> decide
